import Mathlib

/-!
Verification of the DICOM text-burning utility and the ad-hoc XNAT scripts
(`burn_text_to_dicom.py`, `find_small_scan.py`, browser-automation scripts)
against their natural-language specification.

The pixel buffer of a dataset is embedded as a flat row-major list of
natural-number samples together with its shape (numpy's `pixel_array`).
The floating-point arithmetic of the normalization branch
(`(a - a.min()) / (a.max() - a.min()) * 255` followed by truncation to
`uint8`) is embedded as exact arithmetic over ℕ: for non-negative integer
samples the truncated value is `((x - min) * 255) / (max - min)` with
natural division.  The properties proved here (range and monotonicity)
are rounding-insensitive.
-/

namespace BurnText

/-- Maximum of a pixel buffer (`pixel_array.max()`); numpy raises on an
empty array, callers guard with nonemptiness, and we return 0 there. -/
def listMax : List ℕ → ℕ
  | [] => 0
  | x :: xs => xs.foldl max x

/-- Minimum of a pixel buffer (`pixel_array.min()`). -/
def listMin : List ℕ → ℕ
  | [] => 0
  | x :: xs => xs.foldl min x

/-- Truncation of one sample to 8 bits (`astype(np.uint8)` on integer data
wraps modulo 256). -/
def truncate8 (x : ℕ) : ℕ := x % 256

/-- One sample of the 16-bit branch of the normalization
(`burn_text_to_dicom.py` lines 39-40): exact form of
`(x - min) / (max - min) * 255` truncated to an integer. -/
def normalizeSample (mn mx x : ℕ) : ℕ := ((x - mn) * 255) / (mx - mn)

/-- The divisor used on the rescaling branch (`pixel_array.max() -
pixel_array.min()`, line 40). -/
def normDivisor (buf : List ℕ) : ℕ := listMax buf - listMin buf

/-- Normalization of a whole buffer to the 8-bit range
(`burn_text_to_dicom.py` lines 37-42): if the maximum sample exceeds 255
the buffer is rescaled from its observed min/max, otherwise samples are
truncated to 8 bits directly. -/
def normalizeBuffer (buf : List ℕ) : List ℕ :=
  if 255 < listMax buf then
    buf.map (normalizeSample (listMin buf) (listMax buf))
  else
    buf.map truncate8

theorem listMax_cons (x : ℕ) (xs : List ℕ) :
    listMax (x :: xs) = xs.foldl max x := rfl

theorem le_foldl_max (x : ℕ) (xs : List ℕ) : x ≤ xs.foldl max x := by
  induction xs generalizing x with
  | nil => exact le_refl x
  | cons y ys ih => exact le_trans (le_max_left x y) (ih (max x y))

theorem foldl_max_mem_le (xs : List ℕ) (a x : ℕ) (hx : x ∈ xs) :
    x ≤ xs.foldl max a := by
  induction xs generalizing a with
  | nil => cases hx
  | cons y ys ih =>
    rcases List.mem_cons.mp hx with h | h
    · subst h
      exact le_trans (le_max_right a x) (le_foldl_max _ ys)
    · exact ih _ h

theorem mem_le_listMax (buf : List ℕ) (x : ℕ) (hx : x ∈ buf) :
    x ≤ listMax buf := by
  cases buf with
  | nil => cases hx
  | cons y ys =>
    rcases List.mem_cons.mp hx with h | h
    · rw [h]; exact le_foldl_max y ys
    · exact foldl_max_mem_le ys y x h

theorem foldl_min_le_init (x : ℕ) (xs : List ℕ) : xs.foldl min x ≤ x := by
  induction xs generalizing x with
  | nil => exact le_refl x
  | cons y ys ih => exact le_trans (ih (min x y)) (min_le_left x y)

theorem foldl_min_le_mem (xs : List ℕ) (a x : ℕ) (hx : x ∈ xs) :
    xs.foldl min a ≤ x := by
  induction xs generalizing a with
  | nil => cases hx
  | cons y ys ih =>
    rcases List.mem_cons.mp hx with h | h
    · subst h
      exact le_trans (foldl_min_le_init _ ys) (min_le_right a x)
    · exact ih _ h

theorem listMin_le_mem (buf : List ℕ) (x : ℕ) (hx : x ∈ buf) :
    listMin buf ≤ x := by
  cases buf with
  | nil => cases hx
  | cons y ys =>
    rcases List.mem_cons.mp hx with h | h
    · rw [h]; exact foldl_min_le_init y ys
    · exact foldl_min_le_mem ys y x h

/-- Each normalized sample of an in-range input is at most 255. -/
theorem normalizeSample_le_255 (mn mx x : ℕ) (hx : x ≤ mx) :
    normalizeSample mn mx x ≤ 255 := by
  unfold normalizeSample
  rcases Nat.eq_zero_or_pos (mx - mn) with h0 | hpos
  · rw [h0]; simp
  · have hnum : (x - mn) * 255 ≤ (mx - mn) * 255 :=
      Nat.mul_le_mul_right 255 (Nat.sub_le_sub_right hx mn)
    calc (x - mn) * 255 / (mx - mn)
        ≤ (mx - mn) * 255 / (mx - mn) := Nat.div_le_div_right hnum
      _ = 255 := by
          rw [Nat.mul_comm]
          exact Nat.mul_div_cancel 255 hpos

/-- The normalization map is monotone in the sample value. -/
theorem normalizeSample_mono (mn mx x y : ℕ) (hxy : x ≤ y) :
    normalizeSample mn mx x ≤ normalizeSample mn mx y := by
  unfold normalizeSample
  exact Nat.div_le_div_right
    (Nat.mul_le_mul_right 255 (Nat.sub_le_sub_right hxy mn))

/-- A pixel array (numpy ndarray): its shape and row-major flat data. -/
structure NdArray where
  shape : List ℕ
  data : List ℕ
  deriving Repr, DecidableEq

/-- One input file as seen by `burn_text_into_dicom`. -/
inductive DicomFile where
  | unreadable
  | noPixel
  | withPixels (arr : NdArray)
  deriving Repr, DecidableEq

/-- Observable effect of one call to `burn_text_into_dicom`:
`returned = some b` models a normal return of `b`, `none` models a raised
exception; `written` is the pixel data saved to the output path, `none`
when no save happens on that path. -/
structure BurnEffect where
  returned : Option Bool
  written : Option (List ℕ)
  deriving Repr, DecidableEq

/-- Abstract model of the text rasterized by PIL `draw.text` (lines
56-71): the rendered glyphs, offset to the fixed position and clipped to
the image, give a composited sample value on their support (row, col) and
leave every pixel outside the support unchanged. -/
abbrev Overlay := ℕ → ℕ → Option ℕ

/-- Apply a flat-indexed overlay to a buffer, starting at index `i`. -/
def drawFlatFrom (ov : ℕ → Option ℕ) : ℕ → List ℕ → List ℕ
  | _, [] => []
  | i, v :: rest => ((ov i).getD v) :: drawFlatFrom ov (i + 1) rest

/-- Row/column of a flat index in a 2-D grayscale buffer of width `W`. -/
def grayIndex (ov : Overlay) (W i : ℕ) : Option ℕ := ov (i / W) (i % W)

/-- Drawing on a grayscale image of width `W` (mode 'L', line 47). -/
def drawOnGray (ov : Overlay) (W : ℕ) (data : List ℕ) : List ℕ :=
  drawFlatFrom (grayIndex ov W) 0 data

/-- Pixel position of a flat index in an interleaved 3-channel buffer. -/
def rgbIndex (ov : Overlay) (W i : ℕ) : Option ℕ :=
  ov (i / (3 * W)) ((i % (3 * W)) / 3)

/-- Drawing on a 3-channel color image of width `W` (mode 'RGB', line 50). -/
def drawOnRgb (ov : Overlay) (W : ℕ) (data : List ℕ) : List ℕ :=
  drawFlatFrom (rgbIndex ov W) 0 data

/-- Model of `burn_text_into_dicom` (`burn_text_to_dicom.py` lines 24-84).
An unreadable file models `pydicom.dcmread` or pixel decoding raising; a
zero-size pixel array makes numpy's `.max()` raise at line 37; shapes of
rank other than 2 or 3 hit the unsupported branch at lines 51-53.  On the
rank-3 branch, `Image.fromarray(..., 'RGB')` at line 50 takes the image
size (shape[1], shape[0]) and feeds the flat bytes to the raw decoder:
when the buffer holds at least shape[0]*shape[1]*3 samples the decoder
consumes the first shape[0]*shape[1]*3 of them as an RGB image and
silently ignores the excess, so the call succeeds, the text is drawn and
the file is written regardless of the channel count; with fewer samples
it raises (not enough image data) and nothing is written.  `ov` abstracts
the rasterized text. -/
def burnTextIntoDicom (ov : Overlay) (f : DicomFile) : BurnEffect :=
  match f with
  | .unreadable => ⟨none, none⟩
  | .noPixel => ⟨some false, none⟩
  | .withPixels arr =>
    if arr.data.isEmpty then ⟨none, none⟩
    else
      let nd := normalizeBuffer arr.data
      if arr.shape.length = 2 then
        ⟨some true, some (drawOnGray ov (arr.shape.getD 1 0) nd)⟩
      else if arr.shape.length = 3 then
        if arr.shape.getD 0 0 * arr.shape.getD 1 0 * 3 ≤ arr.data.length then
          ⟨some true, some (drawOnRgb ov (arr.shape.getD 1 0)
            (nd.take (arr.shape.getD 0 0 * arr.shape.getD 1 0 * 3)))⟩
        else ⟨none, none⟩
      else ⟨some false, none⟩

/-- The font chosen at lines 58-65: the system truetype font at size
`max(20, img.height // 20)` when that font file loads, otherwise PIL's
built-in default font at its own built-in size. -/
inductive FontChoice where
  | truetype (size : ℕ)
  | builtin
  deriving Repr, DecidableEq

def chooseFont (helveticaAvailable : Bool) (height : ℕ) : FontChoice :=
  if helveticaAvailable then .truetype (max 20 (height / 20)) else .builtin

/-- Fixed text position, line 68. -/
def textPosition : ℕ × ℕ := (10, 10)

/-- Fixed fill intensity, line 71. -/
def textFill : ℕ := 255

/-- Result of `process_directory` (lines 87-121). -/
inductive DirReport where
  | noFiles
  | processed (successCount total : ℕ) (effects : List BurnEffect)
  deriving Repr, DecidableEq

/-- `glob("*.dcm")` keeps exactly the names ending in `.dcm`, stated as
a character-level suffix test. -/
def matchesDcm (name : String) : Bool := ".dcm".data.isSuffixOf name.data

/-- The per-file loop of lines 112-118: every file is attempted; a raised
exception is caught and reported and the loop continues; a `True` return
increments the success count. -/
def processLoop (ov : Overlay) (files : List DicomFile) : ℕ × List BurnEffect :=
  match files with
  | [] => (0, [])
  | f :: rest =>
    let e := burnTextIntoDicom ov f
    let r := processLoop ov rest
    ((if e.returned = some true then 1 else 0) + r.1, e :: r.2)

/-- Model of `process_directory` over the listing of an existing
directory (name, content pairs). -/
def processDirectory (ov : Overlay) (dir : List (String × DicomFile)) :
    DirReport :=
  let dicomFiles := dir.filter (fun f => matchesDcm f.1)
  if dicomFiles.isEmpty then .noFiles
  else
    let r := processLoop ov (dicomFiles.map (fun f => f.2))
    .processed r.1 dicomFiles.length r.2

/-- The pixel-data writes a directory run performs. -/
def reportWrites : DirReport → List (List ℕ)
  | .processed _ _ es => es.filterMap (fun e => e.written)
  | _ => []

/-- A file counts as a success when `burn_text_into_dicom` returns True
(line 115). -/
def isSuccess (ov : Overlay) (f : DicomFile) : Bool :=
  (burnTextIntoDicom ov f).returned = some true

end BurnText

namespace Scripts

/-- The XNAT server environment as observed by `find_small_scan.py`. -/
structure Xnat where
  loginStatus : ℕ
  projectsList : List String
  expStatus : String → ℕ
  expList : String → List String
  scanStatus : String → ℕ
  scanList : String → List String

/-- One HTTP request of `find_small_scan.py`. -/
inductive Req where
  | login
  | projects
  | experiments (proj : String)
  | scans (e : String)
  | files (e s : String)
  deriving Repr, DecidableEq

def isListingReq : Req → Bool
  | .login => false
  | _ => true

/-- Requests issued after a successful login (`find_small_scan.py` lines
26-76): the project listing, then per project (first 15) the experiment
listing, per experiment (first 3) the scan listing, and per scan the
DICOM file listing; non-200 listing responses skip to the next item. -/
def restRequests (env : Xnat) : List Req :=
  Req.projects ::
    (env.projectsList.take 15).flatMap (fun p =>
      Req.experiments p ::
        (if env.expStatus p = 200 then
          ((env.expList p).take 3).flatMap (fun e =>
            Req.scans e ::
              (if env.scanStatus e = 200 then
                (env.scanList e).map (fun s => Req.files e s)
              else []))
        else []))

/-- Trace of `find_small_scan.py`: the HTTP requests made and the exit
code (`some 1` when the script aborts at lines 18-20 on a non-200 login,
`none` when it runs through). -/
def findSmallScanTrace (env : Xnat) : List Req × Option ℕ :=
  if env.loginStatus ≠ 200 then ([Req.login], some 1)
  else (Req.login :: restRequests env, none)

/-- Resource events of the scripts. -/
inductive Ev where
  | acquireDriver
  | releaseDriver
  | acquireSession
  | releaseSession
  | exitCall
  deriving Repr, DecidableEq

/-- How the body guarded by `try` ends: normally, with a raised
exception, or with an `exit(1)` call (which raises `SystemExit`, so the
`finally` clause still runs before the process terminates). -/
inductive BodyOutcome where
  | ok
  | raised
  | exited
  deriving Repr, DecidableEq

/-- Resource events of `test_console_logs.py` (lines 21-73): the driver
is acquired, the body runs inside `try`, and `driver.quit()` sits in
`finally`. -/
def testConsoleLogsEvents (o : BodyOutcome) : List Ev :=
  Ev.acquireDriver ::
    ((match o with
      | .exited => [Ev.exitCall]
      | _ => ([] : List Ev)) ++ [Ev.releaseDriver])

/-- Resource events of `test_viewer_headless.py` (lines 29-196): same
`try`/`finally` structure, with `exit(1)` calls inside the `try`. -/
def testViewerHeadlessEvents (o : BodyOutcome) : List Ev :=
  Ev.acquireDriver ::
    ((match o with
      | .exited => [Ev.exitCall]
      | _ => ([] : List Ev)) ++ [Ev.releaseDriver])

/-- Resource events of `find_small_scan.py`: the `requests.Session()` of
line 14 is created at module level and no path closes it. -/
def findSmallScanEvents (env : Xnat) : List Ev :=
  Ev.acquireSession :: (if env.loginStatus ≠ 200 then [Ev.exitCall] else [])

/-- A concrete environment whose login request returns 401. -/
def envLoginFail : Xnat :=
  ⟨401, [], fun _ => 0, fun _ => [], fun _ => 0, fun _ => []⟩

/-- A concrete environment whose login request returns 200 and whose
listings are empty. -/
def envLoginOk : Xnat :=
  ⟨200, [], fun _ => 0, fun _ => [], fun _ => 0, fun _ => []⟩

end Scripts

open BurnText Scripts

theorem countP_not_add {α : Type} (p : α → Bool) (l : List α) :
    l.countP p + l.countP (fun a => !(p a)) = l.length := by
  induction l with
  | nil => rfl
  | cons a l ih =>
    by_cases h : p a = true <;>
      (simp [List.countP_cons, h, ← ih]; omega)

theorem drawFlatFrom_getElem (ov : ℕ → Option ℕ) (data : List ℕ) (s i : ℕ) :
    (drawFlatFrom ov s data)[i]? = (data[i]?).map (fun v => (ov (s + i)).getD v) := by
  induction data generalizing s i with
  | nil => simp [drawFlatFrom]
  | cons v rest ih =>
    cases i with
    | zero => simp [drawFlatFrom]
    | succ j =>
      have hadd : s + 1 + j = s + (j + 1) := by omega
      simp [drawFlatFrom, ih (s + 1) j, hadd]

theorem processLoop_length (ov : Overlay) (files : List DicomFile) :
    (processLoop ov files).2.length = files.length := by
  induction files with
  | nil => rfl
  | cons f rest ih => simp [processLoop, ih]

theorem processLoop_count (ov : Overlay) (files : List DicomFile) :
    (processLoop ov files).1 = files.countP (fun f => isSuccess ov f) := by
  induction files with
  | nil => rfl
  | cons f rest ih =>
    by_cases h : (burnTextIntoDicom ov f).returned = some true <;>
      simp [processLoop, List.countP_cons, ih, isSuccess, h, Nat.add_comm]

theorem burn_write_or (ov : Overlay) (f : DicomFile) :
    (burnTextIntoDicom ov f).written = none ∨
    (burnTextIntoDicom ov f).returned = some true := by
  cases f with
  | unreadable => left; rfl
  | noPixel => left; rfl
  | withPixels arr =>
    unfold burnTextIntoDicom
    dsimp only
    split
    · left; rfl
    · split
      · right; rfl
      · split
        · split
          · right; rfl
          · left; rfl
        · left; rfl

theorem burn_fail_no_write (ov : Overlay) (f : DicomFile)
    (h : (burnTextIntoDicom ov f).returned ≠ some true) :
    (burnTextIntoDicom ov f).written = none := by
  rcases burn_write_or ov f with hw | hr
  · exact hw
  · exact absurd hr h

/-- C1: for every pixel buffer whose maximum sample value exceeds 255,
`burn_text_into_dicom` rescales the buffer linearly using the observed
minimum and maximum before drawing; every sample of the normalized buffer
lies in [0, 255] and the rescaling map is a monotone function of the
sample value. -/
theorem burn_c1_normalize_range_monotone (buf : List ℕ)
    (h : 255 < listMax buf) :
    normalizeBuffer buf =
      buf.map (normalizeSample (listMin buf) (listMax buf)) ∧
    (∀ y ∈ normalizeBuffer buf, y ≤ 255) ∧
    (∀ x y, x ∈ buf → y ∈ buf → x ≤ y →
      normalizeSample (listMin buf) (listMax buf) x ≤
        normalizeSample (listMin buf) (listMax buf) y) := by
  have hb : normalizeBuffer buf =
      buf.map (normalizeSample (listMin buf) (listMax buf)) := by
    unfold normalizeBuffer
    rw [if_pos h]
  refine ⟨hb, ?_, ?_⟩
  · intro y hy
    rw [hb] at hy
    rcases List.mem_map.mp hy with ⟨x, hx, rfl⟩
    exact normalizeSample_le_255 _ _ _ (mem_le_listMax buf x hx)
  · intro x y _ _ hxy
    exact normalizeSample_mono _ _ _ _ hxy

/-- Witness for C1 at the concrete buffer [0, 300]. -/
theorem burn_c1_witness :
    255 < listMax [0, 300] ∧
    (normalizeBuffer [0, 300] =
        ([0, 300] : List ℕ).map
          (normalizeSample (listMin [0, 300]) (listMax [0, 300])) ∧
      (∀ y ∈ normalizeBuffer [0, 300], y ≤ 255) ∧
      (∀ x y, x ∈ ([0, 300] : List ℕ) → y ∈ ([0, 300] : List ℕ) → x ≤ y →
        normalizeSample (listMin [0, 300]) (listMax [0, 300]) x ≤
          normalizeSample (listMin [0, 300]) (listMax [0, 300]) y)) :=
  ⟨by decide, burn_c1_normalize_range_monotone [0, 300] (by decide)⟩

/-- C5 counterexample: the constant buffer [300, 300] has maximum 300 >
255, yet the divisor max - min used on its rescaling branch is zero, so
the claim that the divisor is nonzero for every buffer reaching that
branch is false. -/
theorem burn_c5_counterexample :
    255 < listMax [300, 300] ∧ normDivisor [300, 300] = 0 := by decide

/-- C5 (amended): for every buffer whose maximum sample value exceeds 255
and which contains at least two distinct sample values, the divisor
max - min of the rescaling branch is nonzero. -/
theorem burn_c5_amended (buf : List ℕ) (x y : ℕ) (hx : x ∈ buf)
    (hy : y ∈ buf) (hxy : x ≠ y) (_hmax : 255 < listMax buf) :
    normDivisor buf ≠ 0 := by
  have h1 := listMin_le_mem buf x hx
  have h2 := listMin_le_mem buf y hy
  have h3 := mem_le_listMax buf x hx
  have h4 := mem_le_listMax buf y hy
  unfold normDivisor
  omega

/-- Witness for C5 (amended) at the concrete buffer [100, 300]. -/
theorem burn_c5_witness :
    100 ∈ ([100, 300] : List ℕ) ∧ 300 ∈ ([100, 300] : List ℕ) ∧
    (100 : ℕ) ≠ 300 ∧ 255 < listMax [100, 300] ∧
    normDivisor [100, 300] ≠ 0 :=
  ⟨by decide, by decide, by decide, by decide,
    burn_c5_amended [100, 300] 100 300 (by decide) (by decide) (by decide)
      (by decide)⟩

/-- C6: a dataset without a pixel-data attribute is skipped: the call
returns False (a non-success result, no exception raised) and performs
no write for that file. -/
theorem burn_c6_no_pixel_skip (ov : Overlay) :
    burnTextIntoDicom ov DicomFile.noPixel =
      ⟨some false, none⟩ := rfl

/-- Witness for C6 at a concrete overlay. -/
theorem burn_c6_witness :
    burnTextIntoDicom (fun _ _ => none) DicomFile.noPixel =
      ⟨some false, none⟩ :=
  burn_c6_no_pixel_skip (fun _ _ => none)

/-- C8 counterexample: when the system truetype font fails to load, the
code falls back to PIL's built-in default font, so the text is not
rasterized at size max(20, height / 20); at height 100 the claimed size
would be 20. -/
theorem burn_c8_counterexample :
    chooseFont false 100 ≠ FontChoice.truetype (max 20 (100 / 20)) ∧
    chooseFont false 100 = FontChoice.builtin := by decide

/-- C8 (amended): when the system truetype font loads, the text is
rasterized at size max(20, height / 20); otherwise the built-in default
font is used at its own built-in size; in all cases the text is
composited at the fixed offset (10, 10) and drawn with the single fill
intensity 255. -/
theorem burn_c8_amended (h : ℕ) :
    chooseFont true h = FontChoice.truetype (max 20 (h / 20)) ∧
    chooseFont false h = FontChoice.builtin ∧
    textPosition = (10, 10) ∧ textFill = 255 :=
  ⟨rfl, rfl, rfl, rfl⟩

/-- Witness for C8 (amended) at height 4000. -/
theorem burn_c8_witness :
    chooseFont true 4000 = FontChoice.truetype (max 20 (4000 / 20)) ∧
    chooseFont false 4000 = FontChoice.builtin ∧
    textPosition = (10, 10) ∧ textFill = 255 :=
  burn_c8_amended 4000

/-- C9: when the login request of the scan-finding script does not
return status 200, the script exits with status 1 having made only the
login request: no project, experiment, scan, or file listing request is
issued. -/
theorem scripts_c9_login_abort (env : Xnat) (h : env.loginStatus ≠ 200) :
    findSmallScanTrace env = ([Req.login], some 1) ∧
    ∀ r ∈ (findSmallScanTrace env).1, isListingReq r = false := by
  have ht : findSmallScanTrace env = ([Req.login], some 1) := by
    unfold findSmallScanTrace
    rw [if_pos h]
  refine ⟨ht, ?_⟩
  intro r hr
  rw [ht] at hr
  simp only [List.mem_singleton] at hr
  rw [hr]
  rfl

/-- Witness for C9 at a concrete environment whose login returns 401. -/
theorem scripts_c9_witness :
    envLoginFail.loginStatus ≠ 200 ∧
    (findSmallScanTrace envLoginFail = ([Req.login], some 1) ∧
      ∀ r ∈ (findSmallScanTrace envLoginFail).1, isListingReq r = false) :=
  ⟨by decide, scripts_c9_login_abort envLoginFail (by decide)⟩

/-- C10 counterexample: on a run of find_small_scan.py whose login
succeeds, the HTTP session is acquired and no release of it appears
anywhere in the script's events, so the claim that every acquired
session is released at the end of its scoped block is false. -/
theorem scripts_c10_counterexample :
    Ev.acquireSession ∈ findSmallScanEvents envLoginOk ∧
    Ev.releaseSession ∉ findSmallScanEvents envLoginOk := by decide

/-- C10 (amended): the browser-driver scripts release the driver in a
finally clause on every outcome of the guarded body (normal return,
raised exception, or exit call), while the HTTP session of the
scan-finding script is never explicitly released on any path. -/
theorem scripts_c10_amended (o1 o2 : BodyOutcome) (env : Xnat) :
    Ev.releaseDriver ∈ testConsoleLogsEvents o1 ∧
    Ev.releaseDriver ∈ testViewerHeadlessEvents o2 ∧
    Ev.releaseSession ∉ findSmallScanEvents env := by
  refine ⟨?_, ?_, ?_⟩
  · cases o1 <;> simp [testConsoleLogsEvents]
  · cases o2 <;> simp [testViewerHeadlessEvents]
  · by_cases h : env.loginStatus ≠ 200 <;> simp [findSmallScanEvents, h]

/-- Witness for C10 (amended) at concrete outcomes and environment. -/
theorem scripts_c10_witness :
    Ev.releaseDriver ∈ testConsoleLogsEvents BodyOutcome.raised ∧
    Ev.releaseDriver ∈ testViewerHeadlessEvents BodyOutcome.exited ∧
    Ev.releaseSession ∉ findSmallScanEvents envLoginFail :=
  scripts_c10_amended BodyOutcome.raised BodyOutcome.exited envLoginFail

theorem burn_gray_eq (ov : Overlay) (H W : ℕ) (data : List ℕ)
    (hne : data.isEmpty = false) :
    burnTextIntoDicom ov (DicomFile.withPixels ⟨[H, W], data⟩) =
      ⟨some true, some (drawOnGray ov W (normalizeBuffer data))⟩ := by
  unfold burnTextIntoDicom
  simp [hne, List.getD]

/-- C2: for every 2-D grayscale buffer whose maximum sample value is at
most 255, the buffer written by `burn_text_into_dicom` agrees with the
input truncated to 8 bits at every position outside the text overlay,
and carries the rendered overlay value at every position inside it. -/
theorem burn_c2_gray_frame (ov : Overlay) (H W : ℕ) (data : List ℕ)
    (hne : data ≠ []) (hmax : listMax data ≤ 255) :
    ∃ out,
      burnTextIntoDicom ov (DicomFile.withPixels ⟨[H, W], data⟩) =
        ⟨some true, some out⟩ ∧
      (∀ i, ov (i / W) (i % W) = none →
        out[i]? = (data[i]?).map truncate8) ∧
      (∀ i v, ov (i / W) (i % W) = some v → i < data.length →
        out[i]? = some v) := by
  have hempty : data.isEmpty = false := by
    cases data with
    | nil => exact absurd rfl hne
    | cons a l => rfl
  have hnorm : normalizeBuffer data = data.map truncate8 := by
    unfold normalizeBuffer
    rw [if_neg (by omega)]
  refine ⟨drawOnGray ov W (data.map truncate8), ?_, ?_, ?_⟩
  · rw [burn_gray_eq ov H W data hempty, hnorm]
  · intro i hov
    unfold drawOnGray
    rw [drawFlatFrom_getElem]
    simp [grayIndex, hov]
    cases data[i]? <;> rfl
  · intro i v hov hi
    unfold drawOnGray
    rw [drawFlatFrom_getElem]
    have hgi : data[i]? = some data[i] := List.getElem?_eq_getElem hi
    simp [grayIndex, hov, hgi]

/-- Witness for C2 at a concrete 2x2 buffer and a one-pixel overlay. -/
theorem burn_c2_witness :
    ([1, 2, 3, 200] : List ℕ) ≠ [] ∧ listMax [1, 2, 3, 200] ≤ 255 ∧
    (∃ out,
      burnTextIntoDicom
          (fun r c => if r == 0 && c == 0 then some 255 else none)
          (DicomFile.withPixels ⟨[2, 2], [1, 2, 3, 200]⟩) =
        ⟨some true, some out⟩ ∧
      (∀ i, (fun r c => if r == 0 && c == 0 then some 255 else none)
            (i / 2) (i % 2) = none →
        out[i]? = (([1, 2, 3, 200] : List ℕ)[i]?).map truncate8) ∧
      (∀ i v, (fun r c => if r == 0 && c == 0 then some 255 else none)
            (i / 2) (i % 2) = some v →
          i < ([1, 2, 3, 200] : List ℕ).length → out[i]? = some v)) :=
  ⟨by decide, by decide,
    burn_c2_gray_frame (fun r c => if r == 0 && c == 0 then some 255 else none)
      2 2 [1, 2, 3, 200] (by decide) (by decide)⟩

/-- C3: for every directory with at least one matching .dcm file,
`process_directory` processes all N matched files without aborting (one
reported effect per file), reports exactly N - K successes where K is
the number of files whose processing fails, and performs no write for
any failing file. -/
theorem burn_c3_batch_counts (ov : Overlay)
    (dir : List (String × DicomFile))
    (hne : dir.filter (fun f => matchesDcm f.1) ≠ []) :
    ∃ es,
      processDirectory ov dir =
        DirReport.processed
          (((dir.filter (fun f => matchesDcm f.1)).map (fun f => f.2)).length -
            ((dir.filter (fun f => matchesDcm f.1)).map (fun f => f.2)).countP
              (fun f => !(isSuccess ov f)))
          ((dir.filter (fun f => matchesDcm f.1)).map (fun f => f.2)).length
          es ∧
      es.length =
        ((dir.filter (fun f => matchesDcm f.1)).map (fun f => f.2)).length ∧
      ∀ f ∈ (dir.filter (fun f => matchesDcm f.1)).map (fun f => f.2),
        isSuccess ov f = false →
          (burnTextIntoDicom ov f).written = none := by
  have hFne : (dir.filter (fun f => matchesDcm f.1)).isEmpty = false := by
    cases hF : dir.filter (fun f => matchesDcm f.1) with
    | nil => exact absurd hF hne
    | cons a l => rfl
  refine ⟨(processLoop ov
      ((dir.filter (fun f => matchesDcm f.1)).map (fun f => f.2))).2,
    ?_, processLoop_length ov _, ?_⟩
  · have hcount : (processLoop ov
        ((dir.filter (fun f => matchesDcm f.1)).map (fun f => f.2))).1 =
        ((dir.filter (fun f => matchesDcm f.1)).map (fun f => f.2)).length -
          ((dir.filter (fun f => matchesDcm f.1)).map (fun f => f.2)).countP
            (fun f => !(isSuccess ov f)) := by
      have h1 := processLoop_count ov
        ((dir.filter (fun f => matchesDcm f.1)).map (fun f => f.2))
      have h2 := countP_not_add (fun f => isSuccess ov f)
        ((dir.filter (fun f => matchesDcm f.1)).map (fun f => f.2))
      omega
    unfold processDirectory
    simp only [hFne, Bool.false_eq_true, if_false, hcount, List.length_map]
  · intro f _ hfail
    apply burn_fail_no_write
    simpa [isSuccess] using hfail

/-- Witness for C3 at a directory with one matching file that is skipped
(no pixel data): one file processed, zero successes, no write. -/
theorem burn_c3_witness :
    ([("a.dcm", DicomFile.noPixel)].filter (fun f => matchesDcm f.1) ≠ []) ∧
    (∃ es,
      processDirectory (fun _ _ => none) [("a.dcm", DicomFile.noPixel)] =
        DirReport.processed
          ((([("a.dcm", DicomFile.noPixel)].filter
              (fun f => matchesDcm f.1)).map (fun f => f.2)).length -
            (([("a.dcm", DicomFile.noPixel)].filter
              (fun f => matchesDcm f.1)).map (fun f => f.2)).countP
              (fun f => !(isSuccess (fun _ _ => none) f)))
          ((([("a.dcm", DicomFile.noPixel)].filter
              (fun f => matchesDcm f.1)).map (fun f => f.2)).length)
          es ∧
      es.length =
        (([("a.dcm", DicomFile.noPixel)].filter
          (fun f => matchesDcm f.1)).map (fun f => f.2)).length ∧
      ∀ f ∈ ([("a.dcm", DicomFile.noPixel)].filter
          (fun f => matchesDcm f.1)).map (fun f => f.2),
        isSuccess (fun _ _ => none) f = false →
          (burnTextIntoDicom (fun _ _ => none) f).written = none) :=
  ⟨by decide,
    burn_c3_batch_counts (fun _ _ => none) [("a.dcm", DicomFile.noPixel)]
      (by decide)⟩

/-- C4 counterexample: a 3-D buffer with four channels (shape 1x1x4) is
neither 2-D nor three-channel 3-D, yet `burn_text_into_dicom` neither
rejects it as unsupported nor leaves the file untouched: the shape test
accepts any 3-D array, the imaging library silently consumes the first
shape[0]*shape[1]*3 samples as a garbled RGB image and ignores the
excess, and the call writes the file and returns True. -/
theorem burn_c4_counterexample :
    (([1, 1, 4] : List ℕ).length = 2 → False) ∧
    ¬(([1, 1, 4] : List ℕ).length = 3 ∧
        ([1, 1, 4] : List ℕ).getLast? = some 3) ∧
    burnTextIntoDicom (fun _ _ => none)
        (DicomFile.withPixels ⟨[1, 1, 4], [7, 7, 7, 7]⟩) =
      ⟨some true, some [7, 7, 7]⟩ := by decide

/-- C4 (amended): the shape check tests only the number of dimensions.
A nonempty buffer whose rank is neither 2 nor 3 is rejected and reported
as unsupported with no write performed.  A 3-D buffer passes the check
regardless of its channel count: when the buffer holds at least
shape[0]*shape[1]*3 samples, the imaging library silently reinterprets
the first shape[0]*shape[1]*3 normalized samples as a three-channel
image, the text is drawn, the file is written and True is returned; with
fewer samples the imaging library raises (not enough image data) and no
write is performed. -/
theorem burn_c4_amended (ov : Overlay) (arr : NdArray)
    (hne : arr.data ≠ []) :
    (arr.shape.length ≠ 2 → arr.shape.length ≠ 3 →
      burnTextIntoDicom ov (DicomFile.withPixels arr) =
        ⟨some false, none⟩) ∧
    (arr.shape.length = 3 →
      arr.shape.getD 0 0 * arr.shape.getD 1 0 * 3 ≤ arr.data.length →
      burnTextIntoDicom ov (DicomFile.withPixels arr) =
        ⟨some true, some (drawOnRgb ov (arr.shape.getD 1 0)
          ((normalizeBuffer arr.data).take
            (arr.shape.getD 0 0 * arr.shape.getD 1 0 * 3)))⟩) ∧
    (arr.shape.length = 3 →
      arr.data.length < arr.shape.getD 0 0 * arr.shape.getD 1 0 * 3 →
      burnTextIntoDicom ov (DicomFile.withPixels arr) =
        ⟨none, none⟩) := by
  have hempty : arr.data.isEmpty = false := by
    cases h : arr.data with
    | nil => exact absurd h hne
    | cons a l => rfl
  have hE : ¬(arr.data.isEmpty = true) := by simp [hempty]
  refine ⟨?_, ?_, ?_⟩
  · intro h2 h3
    unfold burnTextIntoDicom
    dsimp only
    rw [if_neg hE, if_neg h2, if_neg h3]
  · intro h3 hb
    have h2 : arr.shape.length ≠ 2 := by omega
    unfold burnTextIntoDicom
    dsimp only
    rw [if_neg hE, if_neg h2, if_pos h3, if_pos hb]
  · intro h3 hb
    have h2 : arr.shape.length ≠ 2 := by omega
    have hb' :
        ¬(arr.shape.getD 0 0 * arr.shape.getD 1 0 * 3 ≤ arr.data.length) := by
      omega
    unfold burnTextIntoDicom
    dsimp only
    rw [if_neg hE, if_neg h2, if_pos h3, if_neg hb']

/-- Witness for C4 (amended) at a rank-1 buffer. -/
theorem burn_c4_witness :
    ([9] : List ℕ) ≠ [] ∧
    (((([4] : List ℕ)).length ≠ 2 → (([4] : List ℕ)).length ≠ 3 →
      burnTextIntoDicom (fun _ _ => none)
          (DicomFile.withPixels ⟨[4], [9]⟩) =
        ⟨some false, none⟩) ∧
     ((([4] : List ℕ)).length = 3 →
      (([4] : List ℕ)).getD 0 0 * (([4] : List ℕ)).getD 1 0 * 3 ≤
          ([9] : List ℕ).length →
      burnTextIntoDicom (fun _ _ => none)
          (DicomFile.withPixels ⟨[4], [9]⟩) =
        ⟨some true, some (drawOnRgb (fun _ _ => none)
          ((([4] : List ℕ)).getD 1 0)
          ((normalizeBuffer [9]).take
            ((([4] : List ℕ)).getD 0 0 * (([4] : List ℕ)).getD 1 0 * 3)))⟩) ∧
     ((([4] : List ℕ)).length = 3 →
      ([9] : List ℕ).length <
          (([4] : List ℕ)).getD 0 0 * (([4] : List ℕ)).getD 1 0 * 3 →
      burnTextIntoDicom (fun _ _ => none)
          (DicomFile.withPixels ⟨[4], [9]⟩) =
        ⟨none, none⟩)) :=
  ⟨by decide, burn_c4_amended (fun _ _ => none) ⟨[4], [9]⟩ (by decide)⟩

/-- C7: over an existing directory that is empty or contains no file
matching *.dcm, `process_directory` reports that no files were found and
performs no write. -/
theorem burn_c7_no_matching_files (ov : Overlay)
    (dir : List (String × DicomFile))
    (h : dir.filter (fun f => matchesDcm f.1) = []) :
    processDirectory ov dir = DirReport.noFiles ∧
    reportWrites (processDirectory ov dir) = [] := by
  have hrep : processDirectory ov dir = DirReport.noFiles := by
    unfold processDirectory
    simp [h]
  exact ⟨hrep, by rw [hrep]; rfl⟩

/-- Witness for C7 at a directory holding one non-matching file. -/
theorem burn_c7_witness :
    ([("notes.txt", DicomFile.noPixel)].filter
        (fun f => matchesDcm f.1) = []) ∧
    (processDirectory (fun _ _ => none)
        [("notes.txt", DicomFile.noPixel)] = DirReport.noFiles ∧
      reportWrites
          (processDirectory (fun _ _ => none)
            [("notes.txt", DicomFile.noPixel)]) = []) :=
  ⟨by decide,
    burn_c7_no_matching_files (fun _ _ => none)
      [("notes.txt", DicomFile.noPixel)] (by decide)⟩
